import Mathlib

/-!
A shallow embedding of the Turing-machine tape-convention converter
(`src/main.rs`): the transition data model, the line parser and the
serializer, the state renamer, the boundary-primitive generators, and the
two conversion pipelines, together with theorems checking the specified
properties.  Rust strings are modelled as Lean `String` (a packed list of
characters); the line-level operations (`split`, `trim`,
`split_whitespace`) are modelled on the underlying character lists.  The
`HashSet` of rewrite-target states accumulated by the pipelines is
modelled by the deduplicated list of targets together with an explicit
iteration `order` parameter, constrained in the theorems to be a
permutation of that list (a `HashSet` iterates each stored element exactly
once, in an unspecified order).
-/

namespace TuringSim

/-- Reserved symbol `#` (`constants::LEFT_WALL`). -/
def LEFT_WALL : Char := '#'

/-- Reserved symbol `$` (`constants::RIGHT_WALL`). -/
def RIGHT_WALL : Char := '$'

/-- Reserved symbol `_` (`constants::BLANK`). -/
def BLANK : Char := '_'

/-- Reserved wildcard symbol `*` (`constants::ANY`). -/
def ANY : Char := '*'

/-- Reserved terminal-state marker (`constants::HALT_PREFIX`). -/
def HALT_PREFIX : String := "halt"

/-- Reserved simulation namespace marker (`constants::SIM_PREFIX`). -/
def SIM_PREFIX : String := "sim_"

/-- The fixed start-state label (`constants::START_STATE`). -/
def START_STATE : String := "0"

/-- Move direction of a transition (`enum Direction`). -/
inductive Direction where
  | left
  | right
  | stay
deriving DecidableEq, Repr

/-- Parse failures of a transition line (`enum ParseTransitionError`). -/
inductive ParseTransitionError where
  | Empty
  | InvalidPartCount (count : Nat)
  | InvalidDirection (dir : String)
  | InvalidSymbol (sym : String)
deriving DecidableEq, Repr

/-- One transition rule (`struct Transition`). -/
structure Transition where
  current_state : String
  current_symbol : Char
  new_symbol : Char
  direction : Direction
  new_state : String
deriving DecidableEq, Repr

/-- Rust `is_halt_state`: the label starts with the terminal marker
(`str::starts_with`, modelled on the character lists). -/
def is_halt_state (state : String) : Bool :=
  HALT_PREFIX.data.isPrefixOf state.data

/-- Rust `get_next_state`: keep a terminal destination, otherwise use the
synthesized check state. -/
def get_next_state (original_new_state : String) (check_state : String) : String :=
  if is_halt_state original_new_state then original_new_state else check_state

/-- Rust `Direction::from_str` on a whitespace-split token. -/
def Direction.fromStr (s : List Char) : Except ParseTransitionError Direction :=
  match s with
  | ['l'] => .ok .left
  | ['r'] => .ok .right
  | ['*'] => .ok .stay
  | _ => .error (.InvalidDirection (String.mk s))

/-- Rust `Direction`'s `Display` output (always one character). -/
def Direction.render : Direction → Char
  | .left => 'l'
  | .right => 'r'
  | .stay => '*'

/-- Whitespace splitting as Rust `split_whitespace`: maximal runs of
non-whitespace characters, in order, dropping the whitespace; `acc` holds
the characters of the current token in reverse. -/
def splitWsAux : List Char → List Char → List (List Char)
  | [], acc => if acc = [] then [] else [acc.reverse]
  | c :: rest, acc =>
    if c.isWhitespace then
      if acc = [] then splitWsAux rest [] else acc.reverse :: splitWsAux rest []
    else
      splitWsAux rest (c :: acc)

/-- Rust `str::split_whitespace` on the character list. -/
def splitWs (l : List Char) : List (List Char) :=
  splitWsAux l []

/-- Rust `str::trim` on the character list: drop whitespace at both ends. -/
def trimChars (l : List Char) : List Char :=
  ((l.dropWhile (fun c => c.isWhitespace)).reverse.dropWhile
    (fun c => c.isWhitespace)).reverse

/-- The first statement of Rust `parse_line`: cut the line at the first
comment delimiter and trim whitespace
(`line.split(';').next().unwrap_or("").trim()`). -/
def clean_line (line : String) : List Char :=
  trimChars (line.data.takeWhile (fun c => c ≠ ';'))

/-- Rust `parse_line`: reject an empty cleaned line, tokenize on whitespace,
require exactly five tokens, take the first character of tokens 1 and 2 as
the symbols (the invalid-symbol error fires only when such a token has no
first character), parse the direction token, and build the record. -/
def parse_line (line : String) : Except ParseTransitionError Transition :=
  if clean_line line = [] then .error .Empty
  else
    match splitWs (clean_line line) with
    | [p0, p1, p2, p3, p4] =>
      match p1.head? with
      | none => .error (.InvalidSymbol (String.mk p1))
      | some current_symbol =>
        match p2.head? with
        | none => .error (.InvalidSymbol (String.mk p2))
        | some new_symbol =>
          match Direction.fromStr p3 with
          | .error e => .error e
          | .ok direction =>
            .ok { current_state := String.mk p0, current_symbol := current_symbol,
                  new_symbol := new_symbol, direction := direction,
                  new_state := String.mk p4 }
    | parts => .error (.InvalidPartCount parts.length)

/-- Rust `impl Display for Transition`: five space-separated tokens, where
`new_symbol` collapses to the wildcard when equal to `current_symbol` and
`new_state` collapses to the wildcard when equal to `current_state`. -/
def Transition.render (t : Transition) : String :=
  String.mk (t.current_state.data ++
    (' ' :: ([t.current_symbol] ++
      (' ' :: ((if t.new_symbol = t.current_symbol then [ANY] else [t.new_symbol]) ++
        (' ' :: ([t.direction.render] ++
          (' ' :: (if t.new_state = t.current_state then [ANY] else t.new_state.data)))))))))

/-- The per-label renamer closed over in Rust `rename_original_states`:
terminal labels pass through, any other label gains the namespace marker. -/
def rename_state (pfx : String) (state : String) : String :=
  if is_halt_state state then state else pfx ++ state

/-- The per-record body of the `map` in Rust `rename_original_states`. -/
def rename_transition (pfx : String) (t : Transition) : Transition :=
  { t with current_state := rename_state pfx t.current_state,
           new_state := rename_state pfx t.new_state }

/-- Rust `rename_original_states`. -/
def rename_original_states (original_transitions : List Transition) (pfx : String) :
    List Transition :=
  original_transitions.map (rename_transition pfx)

/-- Rust `generate_carry_logic`. -/
def generate_carry_logic (carry_0_state carry_1_state : String) : List Transition :=
  [ { current_state := carry_0_state, current_symbol := '0', new_symbol := '0',
      direction := .right, new_state := carry_0_state },
    { current_state := carry_0_state, current_symbol := '1', new_symbol := '0',
      direction := .right, new_state := carry_1_state },
    { current_state := carry_1_state, current_symbol := '0', new_symbol := '1',
      direction := .right, new_state := carry_0_state },
    { current_state := carry_1_state, current_symbol := '1', new_symbol := '1',
      direction := .right, new_state := carry_1_state } ]

/-- Rust `generate_return_head_logic`. -/
def generate_return_head_logic (return_state target_state : String) : List Transition :=
  [ { current_state := return_state, current_symbol := ANY, new_symbol := ANY,
      direction := .left, new_state := return_state },
    { current_state := return_state, current_symbol := LEFT_WALL, new_symbol := LEFT_WALL,
      direction := .right, new_state := target_state } ]

/-- Rust `generate_check_logic`. -/
def generate_check_logic (check_state on_any_state : String)
    (on_symbol on_symbol_new_symbol : Char) (on_symbol_direction : Direction)
    (on_symbol_new_state : String) : List Transition :=
  [ { current_state := check_state, current_symbol := ANY, new_symbol := ANY,
      direction := .stay, new_state := on_any_state },
    { current_state := check_state, current_symbol := on_symbol,
      new_symbol := on_symbol_new_symbol, direction := on_symbol_direction,
      new_state := on_symbol_new_state } ]

/-- Rust `generate_setup_transitions` (Infinite-to-Sipser setup cluster). -/
def generate_setup_transitions (renamed_start_state : String) : List Transition :=
  [ { current_state := START_STATE, current_symbol := '0', new_symbol := LEFT_WALL,
      direction := .right, new_state := "q_carry_0" },
    { current_state := START_STATE, current_symbol := '1', new_symbol := LEFT_WALL,
      direction := .right, new_state := "q_carry_1" } ] ++
  generate_carry_logic "q_carry_0" "q_carry_1" ++
  [ { current_state := "q_carry_0", current_symbol := BLANK, new_symbol := '0',
      direction := .right, new_state := "q_write_end_marker" },
    { current_state := "q_carry_1", current_symbol := BLANK, new_symbol := '1',
      direction := .right, new_state := "q_write_end_marker" },
    { current_state := "q_write_end_marker", current_symbol := BLANK,
      new_symbol := RIGHT_WALL, direction := .left, new_state := "q_return_head" } ] ++
  generate_return_head_logic "q_return_head" renamed_start_state ++
  [ { current_state := START_STATE, current_symbol := BLANK, new_symbol := LEFT_WALL,
      direction := .right, new_state := "q_write_end_marker_empty" },
    { current_state := "q_write_end_marker_empty", current_symbol := BLANK,
      new_symbol := RIGHT_WALL, direction := .left, new_state := renamed_start_state } ]

/-- Rust `generate_check_right_logic`. -/
def generate_check_right_logic (state : String) : List Transition :=
  generate_check_logic ("check_right_" ++ state) state RIGHT_WALL BLANK .right
    ("expand_right_" ++ state) ++
  [ { current_state := "expand_right_" ++ state, current_symbol := BLANK,
      new_symbol := RIGHT_WALL, direction := .left, new_state := state } ]

/-- Rust `generate_shift_sub_logic`. -/
def generate_shift_sub_logic (state_suffix shift_start_state : String) : List Transition :=
  [ { current_state := shift_start_state, current_symbol := '0', new_symbol := BLANK,
      direction := .right, new_state := "shift_carry_0_" ++ state_suffix },
    { current_state := shift_start_state, current_symbol := '1', new_symbol := BLANK,
      direction := .right, new_state := "shift_carry_1_" ++ state_suffix },
    { current_state := shift_start_state, current_symbol := BLANK, new_symbol := BLANK,
      direction := .stay, new_state := state_suffix } ] ++
  generate_carry_logic ("shift_carry_0_" ++ state_suffix) ("shift_carry_1_" ++ state_suffix) ++
  [ { current_state := "shift_carry_0_" ++ state_suffix, current_symbol := BLANK,
      new_symbol := '0', direction := .right,
      new_state := "shift_write_end_" ++ state_suffix },
    { current_state := "shift_carry_1_" ++ state_suffix, current_symbol := BLANK,
      new_symbol := '1', direction := .right,
      new_state := "shift_write_end_" ++ state_suffix },
    { current_state := "shift_carry_0_" ++ state_suffix, current_symbol := RIGHT_WALL,
      new_symbol := '0', direction := .right,
      new_state := "shift_write_end_" ++ state_suffix },
    { current_state := "shift_carry_1_" ++ state_suffix, current_symbol := RIGHT_WALL,
      new_symbol := '1', direction := .right,
      new_state := "shift_write_end_" ++ state_suffix },
    { current_state := shift_start_state, current_symbol := RIGHT_WALL,
      new_symbol := BLANK, direction := .right,
      new_state := "shift_write_end_" ++ state_suffix },
    { current_state := "shift_write_end_" ++ state_suffix, current_symbol := BLANK,
      new_symbol := RIGHT_WALL, direction := .left,
      new_state := "shift_return_" ++ state_suffix } ] ++
  generate_return_head_logic ("shift_return_" ++ state_suffix) state_suffix

/-- Rust `generate_check_left_logic`. -/
def generate_check_left_logic (state : String) : List Transition :=
  generate_check_logic ("check_left_" ++ state) state LEFT_WALL LEFT_WALL .right
    ("shift_start_" ++ state) ++
  generate_shift_sub_logic state ("shift_start_" ++ state)

/-- The per-target pair of auxiliary clusters emitted by the body of the
final loop of Rust `convert_simulation_transitions`
(`extend(generate_check_right_logic); extend(generate_check_left_logic)`). -/
def sim_cluster_pair (state : String) : List Transition :=
  generate_check_right_logic state ++ generate_check_left_logic state

/-- The per-record body of the `map` in Rust `convert_simulation_transitions`
(the set insertion aside, which `target_states` models). -/
def rewrite_simulation_transition (t : Transition) : Transition :=
  if is_halt_state t.current_state then t
  else
    match t.direction with
    | .stay => t
    | .right =>
      { t with new_state := get_next_state t.new_state ("check_right_" ++ t.new_state) }
    | .left =>
      { t with new_state := get_next_state t.new_state ("check_left_" ++ t.new_state) }

/-- The contents of the `target_states` `HashSet` accumulated by Rust
`convert_simulation_transitions`: every non-terminal destination label,
each kept once. -/
def target_states (original_transitions : List Transition) : List String :=
  (original_transitions.filterMap (fun t =>
    if is_halt_state t.new_state then none else some t.new_state)).dedup

/-- Rust `convert_simulation_transitions`, with the `HashSet` iteration
order made explicit as the `order` parameter. -/
def convert_simulation_transitions (order : List String)
    (original_transitions : List Transition) : List Transition :=
  original_transitions.map rewrite_simulation_transition ++
    order.flatMap sim_cluster_pair

/-- Rust `generate_wall_setup_transitions` (Sipser-to-Infinite setup). -/
def generate_wall_setup_transitions (renamed_start_state : String) : List Transition :=
  [ { current_state := START_STATE, current_symbol := ANY, new_symbol := ANY,
      direction := .left, new_state := "q_write_wall" },
    { current_state := "q_write_wall", current_symbol := BLANK, new_symbol := LEFT_WALL,
      direction := .right, new_state := renamed_start_state } ]

/-- The per-target cluster emitted by the body of the final loop of Rust
`convert_sipser_to_infinite`. -/
def sipser_cluster (state : String) : List Transition :=
  generate_check_logic ("check_left_wall_" ++ state) state LEFT_WALL LEFT_WALL .stay
    HALT_PREFIX

/-- The per-record body of the `map` in Rust `convert_sipser_to_infinite`
(the set insertion aside, which `sipser_target_states` models). -/
def rewrite_sipser_transition (t : Transition) : Transition :=
  if t.direction = .left then
    { t with new_state := get_next_state t.new_state ("check_left_wall_" ++ t.new_state) }
  else t

/-- The contents of the `target_states` `HashSet` accumulated by Rust
`convert_sipser_to_infinite`: the non-terminal destination of every
Left-direction record, each kept once. -/
def sipser_target_states (original_transitions : List Transition) : List String :=
  (original_transitions.filterMap (fun t =>
    if t.direction = .left ∧ is_halt_state t.new_state = false then some t.new_state
    else none)).dedup

/-- Rust `convert_sipser_to_infinite`, with the `HashSet` iteration order
made explicit as the `order` parameter. -/
def convert_sipser_to_infinite (order : List String)
    (original_transitions : List Transition) : List Transition :=
  original_transitions.map rewrite_sipser_transition ++
    order.flatMap sipser_cluster

/-- Engine-reserved role markers of the synthesized control states; the
spec's documented precondition is that user-supplied labels never begin
with one of them. -/
def RESERVED_ROLES : List String :=
  ["check_right_", "expand_right_", "check_left_", "shift_start_", "shift_carry_0_",
   "shift_carry_1_", "shift_write_end_", "shift_return_", "check_left_wall_"]

/-- A label beginning with an engine-reserved role marker. -/
def is_reserved (s : String) : Bool :=
  RESERVED_ROLES.any (fun p => p.data.isPrefixOf s.data)

/-- Modelled from the spec: `parse_line` itself performs no wildcard
expansion, and the spec's round-trip property (§8) re-reads a parsed
wildcard as `unchanged` - a wildcard `new_symbol` stands for
`current_symbol` and a wildcard `new_state` stands for `current_state` of
the record the text was derived from. -/
def spec_expand_wildcards (t : Transition) : Transition :=
  { t with
    new_symbol := if t.new_symbol = ANY then t.current_symbol else t.new_symbol,
    new_state := if t.new_state = String.mk [ANY] then t.current_state else t.new_state }

/-! Helper lemmas about the string model. -/

lemma string_ext {a b : String} (h : a.data = b.data) : a = b := by
  cases a; cases b; exact congrArg String.mk h

lemma data_append (a b : String) : (a ++ b).data = a.data ++ b.data := rfl

lemma isPrefixOf_append_self : ∀ (l1 l2 : List Char), l1.isPrefixOf (l1 ++ l2) = true := by
  intro l1 l2
  induction l1 with
  | nil => simp [List.isPrefixOf]
  | cons c cs ih => simp [List.isPrefixOf, ih]

lemma ne_of_data_getElem (i : Nat) (ca cb : Char) {a b : String}
    (ha : a.data[i]? = some ca) (hb : b.data[i]? = some cb) (hne : ca ≠ cb) : a ≠ b := by
  intro h
  subst h
  rw [ha] at hb
  exact hne (Option.some.inj hb)

lemma append_left_cancel {p a b : String} (h : p ++ a = p ++ b) : a = b := by
  have hd := congrArg String.data h
  rw [data_append, data_append] at hd
  exact string_ext (List.append_cancel_left hd)

lemma not_reserved_ne_role {s S role : String} (hrole : role ∈ RESERVED_ROLES)
    (hres : is_reserved s = false) : s ≠ role ++ S := by
  intro he
  unfold is_reserved at hres
  rw [List.any_eq_false] at hres
  apply hres role hrole
  rw [he, data_append]
  exact isPrefixOf_append_self _ _

/-! Helper lemmas about the whitespace tokenizer. -/

lemma splitWs_tok_ne_nil : ∀ (l acc tok : List Char), tok ∈ splitWsAux l acc → tok ≠ [] := by
  intro l
  induction l with
  | nil =>
    intro acc tok h
    by_cases ha : acc = []
    · simp [splitWsAux, ha] at h
    · simp only [splitWsAux, if_neg ha, List.mem_singleton] at h
      subst h
      simp [ha]
  | cons c rest ih =>
    intro acc tok h
    unfold splitWsAux at h
    by_cases hw : c.isWhitespace
    · rw [if_pos hw] at h
      by_cases ha : acc = []
      · rw [if_pos ha] at h
        exact ih [] tok h
      · rw [if_neg ha] at h
        rcases List.mem_cons.mp h with h1 | h1
        · subst h1; simp [ha]
        · exact ih [] tok h1
    · rw [if_neg hw] at h
      exact ih (c :: acc) tok h

lemma splitWsAux_nil (acc : List Char) :
    splitWsAux [] acc = if acc = [] then [] else [acc.reverse] := rfl

lemma splitWsAux_cons (c : Char) (rest acc : List Char) :
    splitWsAux (c :: rest) acc =
      if c.isWhitespace then
        if acc = [] then splitWsAux rest [] else acc.reverse :: splitWsAux rest []
      else splitWsAux rest (c :: acc) := rfl

lemma splitWsAux_no_ws_append : ∀ (tok rest acc : List Char),
    (∀ c ∈ tok, c.isWhitespace = false) →
    splitWsAux (tok ++ rest) acc = splitWsAux rest (tok.reverse ++ acc) := by
  intro tok
  induction tok with
  | nil => intro rest acc _; simp
  | cons c cs ih =>
    intro rest acc hw
    have hc : c.isWhitespace = false := hw c (List.mem_cons_self c cs)
    have hcs : ∀ x ∈ cs, x.isWhitespace = false := fun x hx =>
      hw x (List.mem_cons.mpr (Or.inr hx))
    rw [List.cons_append, splitWsAux_cons]
    rw [if_neg (by simp [hc])]
    rw [ih rest (c :: acc) hcs]
    congr 1
    simp

lemma splitWsAux_ws_head (c : Char) (hc : c.isWhitespace = true) (rest acc : List Char)
    (ha : acc ≠ []) : splitWsAux (c :: rest) acc = acc.reverse :: splitWsAux rest [] := by
  rw [splitWsAux_cons, if_pos hc, if_neg ha]

lemma splitWs_token_cons (tok rest : List Char) (hne : tok ≠ [])
    (hw : ∀ c ∈ tok, c.isWhitespace = false) :
    splitWs (tok ++ ' ' :: rest) = tok :: splitWs rest := by
  unfold splitWs
  rw [splitWsAux_no_ws_append tok (' ' :: rest) [] hw]
  rw [splitWsAux_ws_head ' ' (by decide) rest (tok.reverse ++ []) (by simpa using hne)]
  simp

lemma splitWs_last_token (tok : List Char) (hne : tok ≠ [])
    (hw : ∀ c ∈ tok, c.isWhitespace = false) : splitWs tok = [tok] := by
  unfold splitWs
  have h := splitWsAux_no_ws_append tok [] [] hw
  rw [List.append_nil] at h
  rw [h]
  simp [splitWsAux, hne]

lemma takeWhile_ne_semi_eq_self {l : List Char} (h : ∀ c ∈ l, c ≠ ';') :
    l.takeWhile (fun c => c ≠ ';') = l := by
  induction l with
  | nil => rfl
  | cons c t ih =>
    have hc : c ≠ ';' := h c (List.mem_cons_self c t)
    have ht : ∀ x ∈ t, x ≠ ';' := fun x hx => h x (List.mem_cons.mpr (Or.inr hx))
    rw [List.takeWhile_cons, if_pos (by simp [hc]), ih ht]

lemma trimChars_eq_self {l : List Char}
    (hhead : ∃ c t, l = c :: t ∧ c.isWhitespace = false)
    (hlast : ∃ c t, l.reverse = c :: t ∧ c.isWhitespace = false) :
    trimChars l = l := by
  obtain ⟨c, t, rfl, hc⟩ := hhead
  obtain ⟨d, u, hr, hd⟩ := hlast
  unfold trimChars
  rw [List.dropWhile_cons, if_neg (by simp [hc])]
  rw [hr, List.dropWhile_cons, if_neg (by simp [hd]), ← hr]
  simp

/-! Helper lemmas about the rewrites and the synthesized clusters. -/

lemma rewrite_simulation_preserves_cs (t : Transition) :
    (rewrite_simulation_transition t).current_state = t.current_state := by
  unfold rewrite_simulation_transition
  split
  · rfl
  · split <;> rfl

lemma rewrite_sipser_preserves_cs (t : Transition) :
    (rewrite_sipser_transition t).current_state = t.current_state := by
  unfold rewrite_sipser_transition
  split <;> rfl

lemma mem_check_right_cs {s : String} {x : Transition}
    (hx : x ∈ generate_check_right_logic s) :
    x.current_state = "check_right_" ++ s ∨ x.current_state = "expand_right_" ++ s := by
  simp only [generate_check_right_logic, generate_check_logic, List.cons_append,
    List.nil_append, List.mem_cons, List.not_mem_nil, or_false] at hx
  rcases hx with rfl | rfl | rfl <;> simp

lemma mem_check_left_cs {s : String} {x : Transition}
    (hx : x ∈ generate_check_left_logic s) :
    x.current_state = "check_left_" ++ s ∨ x.current_state = "shift_start_" ++ s ∨
      x.current_state = "shift_carry_0_" ++ s ∨ x.current_state = "shift_carry_1_" ++ s ∨
      x.current_state = "shift_write_end_" ++ s ∨ x.current_state = "shift_return_" ++ s := by
  simp only [generate_check_left_logic, generate_check_logic, generate_shift_sub_logic,
    generate_carry_logic, generate_return_head_logic, List.cons_append, List.nil_append,
    List.append_nil, List.mem_cons, List.not_mem_nil, or_false] at hx
  rcases hx with rfl | rfl | rfl | rfl | rfl | rfl | rfl | rfl | rfl | rfl | rfl | rfl |
    rfl | rfl | rfl | rfl | rfl <;> simp

lemma right_cluster_cs_ne {s S : String} (hne : s ≠ S) {x : Transition}
    (hx : x ∈ generate_check_right_logic s) :
    x.current_state ≠ "check_right_" ++ S ∧ x.current_state ≠ "expand_right_" ++ S := by
  rcases mem_check_right_cs hx with h | h
  · rw [h]
    exact ⟨fun he => hne (append_left_cancel he),
      ne_of_data_getElem 0 'c' 'e' rfl rfl (by decide)⟩
  · rw [h]
    exact ⟨ne_of_data_getElem 0 'e' 'c' rfl rfl (by decide),
      fun he => hne (append_left_cancel he)⟩

lemma left_cluster_cs_ne {s S : String} {x : Transition}
    (hx : x ∈ generate_check_left_logic s) :
    x.current_state ≠ "check_right_" ++ S ∧ x.current_state ≠ "expand_right_" ++ S := by
  rcases mem_check_left_cs hx with h | h | h | h | h | h
  · rw [h]
    exact ⟨ne_of_data_getElem 6 'l' 'r' rfl rfl (by decide),
      ne_of_data_getElem 0 'c' 'e' rfl rfl (by decide)⟩
  all_goals rw [h]
  all_goals exact ⟨ne_of_data_getElem 0 's' 'c' rfl rfl (by decide),
    ne_of_data_getElem 0 's' 'e' rfl rfl (by decide)⟩

lemma pair_cluster_cs_ne {s S : String} (hne : s ≠ S) {x : Transition}
    (hx : x ∈ sim_cluster_pair s) :
    x.current_state ≠ "check_right_" ++ S ∧ x.current_state ≠ "expand_right_" ++ S := by
  rcases List.mem_append.mp hx with h | h
  · exact right_cluster_cs_ne hne h
  · exact left_cluster_cs_ne h

lemma mem_sipser_cluster_cs {s : String} {x : Transition} (hx : x ∈ sipser_cluster s) :
    x.current_state = "check_left_wall_" ++ s := by
  simp only [sipser_cluster, generate_check_logic, List.mem_cons, List.not_mem_nil,
    or_false] at hx
  rcases hx with rfl | rfl <;> simp

lemma nodup_split_not_mem {S : String} {o1 o2 : List String}
    (h : (o1 ++ S :: o2).Nodup) : S ∉ o1 ∧ S ∉ o2 := by
  rw [List.nodup_append] at h
  obtain ⟨_, h2, hd⟩ := h
  exact ⟨fun hm => hd hm (List.mem_cons_self S o2), (List.nodup_cons.mp h2).1⟩

lemma fromStr_error_invalid_direction {s : List Char} {e : ParseTransitionError}
    (h : Direction.fromStr s = .error e) : e = .InvalidDirection (String.mk s) := by
  unfold Direction.fromStr at h
  split at h <;> simp_all

lemma fromStr_render (d : Direction) : Direction.fromStr [d.render] = .ok d := by
  cases d <;> rfl

/-! Claim theorems. -/

/-- C10: `parse_line`'s invalid-symbol branch is unreachable - whitespace
splitting yields only non-empty tokens, so for every input line `parse_line`
never returns an invalid-symbol error (a multi-character symbol token is
silently truncated to its first character instead). -/
theorem c10_invalid_symbol_unreachable :
    (∀ l tok : List Char, tok ∈ splitWs l → tok ≠ []) ∧
    (∀ (line : String) (s : String),
      parse_line line ≠ Except.error (ParseTransitionError.InvalidSymbol s)) := by
  refine ⟨fun l tok h => splitWs_tok_ne_nil l [] tok h, ?_⟩
  intro line s
  unfold parse_line
  by_cases hne : clean_line line = []
  · simp [hne]
  rw [if_neg hne]
  have hmem : ∀ tok ∈ splitWs (clean_line line), tok ≠ [] :=
    fun tok h => splitWs_tok_ne_nil _ [] tok h
  revert hmem
  generalize splitWs (clean_line line) = parts
  intro hmem
  rcases parts with _ | ⟨p0, _ | ⟨p1, _ | ⟨p2, _ | ⟨p3, _ | ⟨p4, _ | ⟨p5, rest⟩⟩⟩⟩⟩⟩
  · simp
  · simp
  · simp
  · simp
  · simp
  · have h1 : p1 ≠ [] := hmem p1 (by simp)
    have h2 : p2 ≠ [] := hmem p2 (by simp)
    obtain ⟨c1, t1, rfl⟩ := List.exists_cons_of_ne_nil h1
    obtain ⟨c2, t2, rfl⟩ := List.exists_cons_of_ne_nil h2
    rcases hd : Direction.fromStr p3 with e | d
    · have he := fromStr_error_invalid_direction hd
      simp [hd, he]
    · simp [hd]
  · simp

/-- C10 witness: the token `ab` of the line ` ab ` is non-empty, and the
line `a bb c r d` (with a two-character symbol token) does not produce an
invalid-symbol error. -/
theorem c10_witness :
    ("ab".data ∈ splitWs " ab ".data) ∧ ("ab".data ≠ []) ∧
    (parse_line "a bb c r d" ≠
      Except.error (ParseTransitionError.InvalidSymbol "bb")) :=
  ⟨by decide, c10_invalid_symbol_unreachable.1 " ab ".data "ab".data (by decide),
    c10_invalid_symbol_unreachable.2 "a bb c r d" "bb"⟩

/-- C2 (code evaluation at the failing input): the line `a bb c r d`, whose
token 2 is the two-character `bb`, is accepted by `parse_line` with the
token truncated to `b`, instead of failing with an invalid-symbol error as
the spec requires. -/
theorem c2_multichar_symbol_accepted :
    parse_line "a bb c r d" =
      Except.ok { current_state := "a", current_symbol := 'b', new_symbol := 'c',
                  direction := Direction.right, new_state := "d" } := by
  rfl

/-- C3: the Infinite-to-Sipser per-transition rewrite, on a record whose
current state is non-terminal: a Right-direction record with a non-terminal
destination is retargeted to `check_right_<destination>`, a Left-direction
one to `check_left_<destination>`, and Stay-direction records and records
with a terminal destination are copied unchanged. -/
theorem c3_per_transition_rewrite (t : Transition)
    (hcur : is_halt_state t.current_state = false) :
    (t.direction = Direction.right → is_halt_state t.new_state = false →
      rewrite_simulation_transition t =
        { t with new_state := "check_right_" ++ t.new_state }) ∧
    (t.direction = Direction.left → is_halt_state t.new_state = false →
      rewrite_simulation_transition t =
        { t with new_state := "check_left_" ++ t.new_state }) ∧
    (t.direction = Direction.stay → rewrite_simulation_transition t = t) ∧
    (is_halt_state t.new_state = true → rewrite_simulation_transition t = t) := by
  refine ⟨?_, ?_, ?_, ?_⟩
  · intro hd hn
    simp [rewrite_simulation_transition, get_next_state, hcur, hd, hn]
  · intro hd hn
    simp [rewrite_simulation_transition, get_next_state, hcur, hd, hn]
  · intro hd
    simp [rewrite_simulation_transition, hcur, hd]
  · intro hn
    obtain ⟨cs, csym, nsym, d, ns⟩ := t
    cases d <;> simp_all [rewrite_simulation_transition, get_next_state]

/-- C3 witness: a concrete Right-direction record with non-terminal source
and destination is retargeted to the `check_right_` state. -/
theorem c3_witness :
    (is_halt_state "sim_a" = false) ∧
    (rewrite_simulation_transition ⟨"sim_a", '0', '1', Direction.right, "sim_b"⟩ =
      ⟨"sim_a", '0', '1', Direction.right, "check_right_" ++ "sim_b"⟩) :=
  ⟨by decide,
    (c3_per_transition_rewrite ⟨"sim_a", '0', '1', Direction.right, "sim_b"⟩
      (by decide)).1 rfl (by decide)⟩

/-- C7: terminal invariance - the renamer prefixes every non-terminal label
and leaves terminal (halt-prefixed) labels unchanged, each renamed record is
in the renamer's output, and a record with a terminal destination keeps that
destination through the renamer and through both per-transition rewrites. -/
theorem c7_terminal_invariance (pfx s : String) (ts : List Transition) (t : Transition) :
    (is_halt_state s = true → rename_state pfx s = s) ∧
    (is_halt_state s = false → rename_state pfx s = pfx ++ s) ∧
    (t ∈ ts → rename_transition pfx t ∈ rename_original_states ts pfx) ∧
    (is_halt_state t.new_state = true →
      (rename_transition pfx t).new_state = t.new_state ∧
      rewrite_simulation_transition t = t ∧
      rewrite_sipser_transition t = t) := by
  refine ⟨fun h => by simp [rename_state, h], fun h => by simp [rename_state, h],
    fun h => List.mem_map_of_mem _ h, fun h => ⟨?_, ?_, ?_⟩⟩
  · simp [rename_transition, rename_state, h]
  · unfold rewrite_simulation_transition
    split
    · rfl
    · split <;> simp [get_next_state, h]
  · unfold rewrite_sipser_transition
    split
    · simp [get_next_state, h]
    · rfl

/-- C7 witness: a terminal label passes the renamer unchanged, a plain label
is prefixed, and a concrete record with terminal destination is untouched by
both rewrites. -/
theorem c7_witness :
    (rename_state "sim_" "halt_x" = "halt_x") ∧
    (rename_state "sim_" "a" = "sim_" ++ "a") ∧
    (rename_transition "sim_" ⟨"a", '0', '1', Direction.right, "halt"⟩ ∈
      rename_original_states [⟨"a", '0', '1', Direction.right, "halt"⟩] "sim_") ∧
    ((rename_transition "sim_" ⟨"a", '0', '1', Direction.right, "halt"⟩).new_state =
        "halt" ∧
      rewrite_simulation_transition ⟨"a", '0', '1', Direction.right, "halt"⟩ =
        ⟨"a", '0', '1', Direction.right, "halt"⟩ ∧
      rewrite_sipser_transition ⟨"a", '0', '1', Direction.right, "halt"⟩ =
        ⟨"a", '0', '1', Direction.right, "halt"⟩) :=
  ⟨(c7_terminal_invariance "sim_" "halt_x" [] ⟨"", ' ', ' ', Direction.stay, ""⟩).1
      (by decide),
    (c7_terminal_invariance "sim_" "a" [] ⟨"", ' ', ' ', Direction.stay, ""⟩).2.1
      (by decide),
    (c7_terminal_invariance "sim_" "a" [⟨"a", '0', '1', Direction.right, "halt"⟩]
      ⟨"a", '0', '1', Direction.right, "halt"⟩).2.2.1 (by decide),
    (c7_terminal_invariance "sim_" "a" [⟨"a", '0', '1', Direction.right, "halt"⟩]
      ⟨"a", '0', '1', Direction.right, "halt"⟩).2.2.2 (by decide)⟩

/-- C9: in the Infinite-to-Sipser pipeline both the `check_right_<S>` and
the `check_left_<S>` cluster are emitted for the non-terminal destination S
of every source record, regardless of that record's direction. -/
theorem c9_clusters_for_every_target (ts : List Transition) (order : List String)
    (t : Transition) (hord : order.Perm (target_states ts)) (hmem : t ∈ ts)
    (hnh : is_halt_state t.new_state = false) :
    (∀ x ∈ generate_check_right_logic t.new_state,
      x ∈ convert_simulation_transitions order ts) ∧
    (∀ x ∈ generate_check_left_logic t.new_state,
      x ∈ convert_simulation_transitions order ts) := by
  have hT : t.new_state ∈ target_states ts := by
    unfold target_states
    rw [List.mem_dedup, List.mem_filterMap]
    exact ⟨t, hmem, by simp [hnh]⟩
  have hSo : t.new_state ∈ order := hord.mem_iff.mpr hT
  refine ⟨fun x hx => ?_, fun x hx => ?_⟩
  · exact List.mem_append_right _
      (List.mem_flatMap.mpr ⟨t.new_state, hSo, List.mem_append_left _ hx⟩)
  · exact List.mem_append_right _
      (List.mem_flatMap.mpr ⟨t.new_state, hSo, List.mem_append_right _ hx⟩)

/-- C9 witness: a Stay-direction record also gives rise to both clusters. -/
theorem c9_witness :
    (["sim_b"].Perm (target_states [⟨"sim_a", '0', '1', Direction.stay, "sim_b"⟩])) ∧
    ((∀ x ∈ generate_check_right_logic "sim_b",
        x ∈ convert_simulation_transitions ["sim_b"]
          [⟨"sim_a", '0', '1', Direction.stay, "sim_b"⟩]) ∧
      (∀ x ∈ generate_check_left_logic "sim_b",
        x ∈ convert_simulation_transitions ["sim_b"]
          [⟨"sim_a", '0', '1', Direction.stay, "sim_b"⟩])) :=
  ⟨by decide,
    c9_clusters_for_every_target [⟨"sim_a", '0', '1', Direction.stay, "sim_b"⟩]
      ["sim_b"] ⟨"sim_a", '0', '1', Direction.stay, "sim_b"⟩ (by decide) (by decide)
      (by decide)⟩

/-- C8 counterexample: the claim says every initial read - a blank or a
leading bit - reaches the renamed embedded start state through the
return-head scan; but the setup cluster also enters the renamed start state
directly from `q_write_end_marker_empty` (the blank-tape path), which is not
the return-head state. -/
theorem c8_counterexample :
    ¬ (∀ x ∈ generate_setup_transitions "sim_0", x.new_state = "sim_0" →
        x.current_state = "q_return_head") := by
  decide

/-- C8 (amended): the setup cluster consists of exactly the transitions
below - on reading a leading bit the start state writes the left marker,
runs the carry sweep over the content, appends the carried-out bit, writes
the right marker and repositions with the return-head scan before entering
the renamed start state; on reading a blank it takes a short-circuit path
that writes the left marker, then the right marker, and enters the renamed
start state directly, with no carry sweep and no return-head scan. -/
theorem c8_setup_cluster (renamed_start_state : String) :
    generate_setup_transitions renamed_start_state =
      [ ⟨"0", '0', '#', Direction.right, "q_carry_0"⟩,
        ⟨"0", '1', '#', Direction.right, "q_carry_1"⟩,
        ⟨"q_carry_0", '0', '0', Direction.right, "q_carry_0"⟩,
        ⟨"q_carry_0", '1', '0', Direction.right, "q_carry_1"⟩,
        ⟨"q_carry_1", '0', '1', Direction.right, "q_carry_0"⟩,
        ⟨"q_carry_1", '1', '1', Direction.right, "q_carry_1"⟩,
        ⟨"q_carry_0", '_', '0', Direction.right, "q_write_end_marker"⟩,
        ⟨"q_carry_1", '_', '1', Direction.right, "q_write_end_marker"⟩,
        ⟨"q_write_end_marker", '_', '$', Direction.left, "q_return_head"⟩,
        ⟨"q_return_head", '*', '*', Direction.left, "q_return_head"⟩,
        ⟨"q_return_head", '#', '#', Direction.right, renamed_start_state⟩,
        ⟨"0", '_', '#', Direction.right, "q_write_end_marker_empty"⟩,
        ⟨"q_write_end_marker_empty", '_', '$', Direction.left, renamed_start_state⟩ ] := by
  rfl

/-- Concrete two-record input used to exhibit the order dependence of the
emitted auxiliary clusters. -/
def c1_ts : List Transition :=
  [⟨"sim_a", '0', '0', Direction.stay, "sim_b"⟩,
   ⟨"sim_c", '0', '0', Direction.stay, "sim_d"⟩]

/-- C1 counterexample: two legitimate iteration orders of the same
accumulated target set produce textually different outputs, so the
conversion is not byte-identical across runs (the `HashSet` order is
randomly seeded per process). -/
theorem c1_counterexample :
    (["sim_b", "sim_d"].Perm (target_states c1_ts)) ∧
    (["sim_d", "sim_b"].Perm (target_states c1_ts)) ∧
    convert_simulation_transitions ["sim_b", "sim_d"] c1_ts ≠
      convert_simulation_transitions ["sim_d", "sim_b"] c1_ts := by
  refine ⟨by decide, by decide, ?_⟩
  decide

/-- C1 (amended): for any two iteration orders of the accumulated target
set, the outputs of either pipeline contain the same transitions with the
same multiplicities - they are permutations of each other; only the textual
order of the emitted auxiliary clusters can differ between runs. -/
theorem c1_output_perm_invariant (ts : List Transition) (o1 o2 s1 s2 : List String)
    (h1 : o1.Perm (target_states ts)) (h2 : o2.Perm (target_states ts))
    (g1 : s1.Perm (sipser_target_states ts)) (g2 : s2.Perm (sipser_target_states ts)) :
    (convert_simulation_transitions o1 ts).Perm
      (convert_simulation_transitions o2 ts) ∧
    (convert_sipser_to_infinite s1 ts).Perm (convert_sipser_to_infinite s2 ts) := by
  constructor
  · exact List.Perm.append_left _ ((h1.trans h2.symm).flatMap_right _)
  · exact List.Perm.append_left _ ((g1.trans g2.symm).flatMap_right _)

/-- C1 witness: the two orders of the counterexample's target set give
permutation-equal outputs. -/
theorem c1_witness :
    (["sim_b", "sim_d"].Perm (target_states c1_ts)) ∧
    (List.Perm [] (sipser_target_states c1_ts)) ∧
    ((convert_simulation_transitions ["sim_b", "sim_d"] c1_ts).Perm
        (convert_simulation_transitions ["sim_d", "sim_b"] c1_ts) ∧
      (convert_sipser_to_infinite [] c1_ts).Perm
        (convert_sipser_to_infinite [] c1_ts)) :=
  ⟨by decide, by decide,
    c1_output_perm_invariant c1_ts ["sim_b", "sim_d"] ["sim_d", "sim_b"] [] []
      (by decide) (by decide) (by decide) (by decide)⟩

/-- C4: for every non-terminal destination S reached by a Right-direction
source record, the Infinite-to-Sipser output contains the `check_right_<S>`
cluster exactly once: its two `check_right_<S>` transitions (on the right
marker, write a blank, move right, and continue in the expand state, which
writes a fresh right marker one cell further and moves left back onto the
freed cell before resuming S; on any other symbol, resume S unconditionally)
appear as one contiguous block, and no transition outside that block leaves
the `check_right_<S>` or `expand_right_<S>` states. -/
theorem c4_check_right_cluster (ts : List Transition) (order : List String)
    (t : Transition) (hord : order.Perm (target_states ts)) (hmem : t ∈ ts)
    (hdir : t.direction = Direction.right) (hnh : is_halt_state t.new_state = false)
    (hclean : ∀ u ∈ ts, is_reserved u.current_state = false) :
    ∃ pre post,
      convert_simulation_transitions order ts =
        pre ++ generate_check_right_logic t.new_state ++ post ∧
      generate_check_right_logic t.new_state =
        [ ⟨"check_right_" ++ t.new_state, '*', '*', Direction.stay, t.new_state⟩,
          ⟨"check_right_" ++ t.new_state, '$', '_', Direction.right,
            "expand_right_" ++ t.new_state⟩,
          ⟨"expand_right_" ++ t.new_state, '_', '$', Direction.left, t.new_state⟩ ] ∧
      (∀ x ∈ pre, x.current_state ≠ "check_right_" ++ t.new_state ∧
        x.current_state ≠ "expand_right_" ++ t.new_state) ∧
      (∀ x ∈ post, x.current_state ≠ "check_right_" ++ t.new_state ∧
        x.current_state ≠ "expand_right_" ++ t.new_state) := by
  have hT : t.new_state ∈ target_states ts := by
    unfold target_states
    rw [List.mem_dedup, List.mem_filterMap]
    exact ⟨t, hmem, by simp [hnh]⟩
  have hSo : t.new_state ∈ order := hord.mem_iff.mpr hT
  have hnd : order.Nodup := hord.nodup_iff.mpr (List.nodup_dedup _)
  obtain ⟨o1, o2, ho⟩ := List.append_of_mem hSo
  subst ho
  obtain ⟨hno1, hno2⟩ := nodup_split_not_mem hnd
  refine ⟨ts.map rewrite_simulation_transition ++ o1.flatMap sim_cluster_pair,
    generate_check_left_logic t.new_state ++ o2.flatMap sim_cluster_pair,
    ?_, rfl, ?_, ?_⟩
  · unfold convert_simulation_transitions
    rw [List.flatMap_append, List.flatMap_cons]
    rw [show sim_cluster_pair t.new_state =
      generate_check_right_logic t.new_state ++ generate_check_left_logic t.new_state
      from rfl]
    simp [List.append_assoc]
  · intro x hx
    rcases List.mem_append.mp hx with hx | hx
    · obtain ⟨u, hu, rfl⟩ := List.mem_map.mp hx
      rw [rewrite_simulation_preserves_cs]
      exact ⟨not_reserved_ne_role (by decide) (hclean u hu),
        not_reserved_ne_role (by decide) (hclean u hu)⟩
    · rcases List.mem_flatMap.mp hx with ⟨s', hs', hxs⟩
      refine pair_cluster_cs_ne ?_ hxs
      intro he
      apply hno1
      rw [← he]
      exact hs'
  · intro x hx
    rcases List.mem_append.mp hx with hx | hx
    · exact left_cluster_cs_ne hx
    · rcases List.mem_flatMap.mp hx with ⟨s', hs', hxs⟩
      refine pair_cluster_cs_ne ?_ hxs
      intro he
      apply hno2
      rw [← he]
      exact hs'

/-- Concrete one-record input with a Right-direction transition. -/
def c4_ts : List Transition := [⟨"sim_a", '0', '1', Direction.right, "sim_b"⟩]

/-- C4 witness: the cluster for the destination `sim_b` at a concrete
input. -/
theorem c4_witness :
    (["sim_b"].Perm (target_states c4_ts)) ∧
    ((⟨"sim_a", '0', '1', Direction.right, "sim_b"⟩ : Transition) ∈ c4_ts) ∧
    (is_halt_state "sim_b" = false) ∧
    (∀ u ∈ c4_ts, is_reserved u.current_state = false) ∧
    (∃ pre post,
      convert_simulation_transitions ["sim_b"] c4_ts =
        pre ++ generate_check_right_logic "sim_b" ++ post ∧
      generate_check_right_logic "sim_b" =
        [ ⟨"check_right_" ++ "sim_b", '*', '*', Direction.stay, "sim_b"⟩,
          ⟨"check_right_" ++ "sim_b", '$', '_', Direction.right,
            "expand_right_" ++ "sim_b"⟩,
          ⟨"expand_right_" ++ "sim_b", '_', '$', Direction.left, "sim_b"⟩ ] ∧
      (∀ x ∈ pre, x.current_state ≠ "check_right_" ++ "sim_b" ∧
        x.current_state ≠ "expand_right_" ++ "sim_b") ∧
      (∀ x ∈ post, x.current_state ≠ "check_right_" ++ "sim_b" ∧
        x.current_state ≠ "expand_right_" ++ "sim_b")) :=
  ⟨by decide, by decide, by decide, by decide,
    c4_check_right_cluster c4_ts ["sim_b"]
      ⟨"sim_a", '0', '1', Direction.right, "sim_b"⟩
      (by decide) (by decide) rfl (by decide) (by decide)⟩

/-- C5: in the Sipser-to-Infinite pipeline every Left-direction record with
a non-terminal destination is retargeted to `check_left_wall_<destination>`,
all non-Left records and Left records into terminal states are copied
unchanged, and for each such destination S the output contains the
`check_left_wall_<S>` cluster of exactly two transitions (on the left
marker, go unconditionally to the reserved terminal state; on any other
symbol, stay in place and resume S) as one contiguous block, with no
transition outside that block leaving the `check_left_wall_<S>` state. -/
theorem c5_left_wall_rewrite_and_cluster (ts : List Transition) (order : List String)
    (t : Transition) (hord : order.Perm (sipser_target_states ts)) (hmem : t ∈ ts)
    (hdir : t.direction = Direction.left) (hnh : is_halt_state t.new_state = false)
    (hclean : ∀ u ∈ ts, is_reserved u.current_state = false) :
    (∀ u : Transition,
      (u.direction ≠ Direction.left → rewrite_sipser_transition u = u) ∧
      (is_halt_state u.new_state = true → rewrite_sipser_transition u = u) ∧
      (u.direction = Direction.left → is_halt_state u.new_state = false →
        rewrite_sipser_transition u =
          { u with new_state := "check_left_wall_" ++ u.new_state })) ∧
    ∃ pre post,
      convert_sipser_to_infinite order ts =
        pre ++ sipser_cluster t.new_state ++ post ∧
      sipser_cluster t.new_state =
        [ ⟨"check_left_wall_" ++ t.new_state, '*', '*', Direction.stay, t.new_state⟩,
          ⟨"check_left_wall_" ++ t.new_state, '#', '#', Direction.stay, "halt"⟩ ] ∧
      (∀ x ∈ pre, x.current_state ≠ "check_left_wall_" ++ t.new_state) ∧
      (∀ x ∈ post, x.current_state ≠ "check_left_wall_" ++ t.new_state) := by
  constructor
  · intro u
    refine ⟨?_, ?_, ?_⟩
    · intro h
      simp [rewrite_sipser_transition, h]
    · intro h
      unfold rewrite_sipser_transition
      split
      · simp [get_next_state, h]
      · rfl
    · intro hd hn
      simp [rewrite_sipser_transition, get_next_state, hd, hn]
  have hT : t.new_state ∈ sipser_target_states ts := by
    unfold sipser_target_states
    rw [List.mem_dedup, List.mem_filterMap]
    exact ⟨t, hmem, by simp [hdir, hnh]⟩
  have hSo : t.new_state ∈ order := hord.mem_iff.mpr hT
  have hnd : order.Nodup := hord.nodup_iff.mpr (List.nodup_dedup _)
  obtain ⟨o1, o2, ho⟩ := List.append_of_mem hSo
  subst ho
  obtain ⟨hno1, hno2⟩ := nodup_split_not_mem hnd
  refine ⟨ts.map rewrite_sipser_transition ++ o1.flatMap sipser_cluster,
    o2.flatMap sipser_cluster, ?_, rfl, ?_, ?_⟩
  · unfold convert_sipser_to_infinite
    rw [List.flatMap_append, List.flatMap_cons]
    simp [List.append_assoc]
  · intro x hx
    rcases List.mem_append.mp hx with hx | hx
    · obtain ⟨u, hu, rfl⟩ := List.mem_map.mp hx
      rw [rewrite_sipser_preserves_cs]
      exact not_reserved_ne_role (by decide) (hclean u hu)
    · rcases List.mem_flatMap.mp hx with ⟨s', hs', hxs⟩
      rw [mem_sipser_cluster_cs hxs]
      intro he
      apply hno1
      rw [← append_left_cancel he]
      exact hs'
  · intro x hx
    rcases List.mem_flatMap.mp hx with ⟨s', hs', hxs⟩
    rw [mem_sipser_cluster_cs hxs]
    intro he
    apply hno2
    rw [← append_left_cancel he]
    exact hs'

/-- Concrete one-record input with a Left-direction transition. -/
def c5_ts : List Transition := [⟨"sim_a", '0', '1', Direction.left, "sim_b"⟩]

/-- C5 witness: the rewrite and the `check_left_wall_sim_b` cluster at a
concrete input. -/
theorem c5_witness :
    (["sim_b"].Perm (sipser_target_states c5_ts)) ∧
    ((⟨"sim_a", '0', '1', Direction.left, "sim_b"⟩ : Transition) ∈ c5_ts) ∧
    (is_halt_state "sim_b" = false) ∧
    (∀ u ∈ c5_ts, is_reserved u.current_state = false) ∧
    ((∀ u : Transition,
      (u.direction ≠ Direction.left → rewrite_sipser_transition u = u) ∧
      (is_halt_state u.new_state = true → rewrite_sipser_transition u = u) ∧
      (u.direction = Direction.left → is_halt_state u.new_state = false →
        rewrite_sipser_transition u =
          { u with new_state := "check_left_wall_" ++ u.new_state })) ∧
    ∃ pre post,
      convert_sipser_to_infinite ["sim_b"] c5_ts =
        pre ++ sipser_cluster "sim_b" ++ post ∧
      sipser_cluster "sim_b" =
        [ ⟨"check_left_wall_" ++ "sim_b", '*', '*', Direction.stay, "sim_b"⟩,
          ⟨"check_left_wall_" ++ "sim_b", '#', '#', Direction.stay, "halt"⟩ ] ∧
      (∀ x ∈ pre, x.current_state ≠ "check_left_wall_" ++ "sim_b") ∧
      (∀ x ∈ post, x.current_state ≠ "check_left_wall_" ++ "sim_b")) :=
  ⟨by decide, by decide, by decide, by decide,
    c5_left_wall_rewrite_and_cluster c5_ts ["sim_b"]
      ⟨"sim_a", '0', '1', Direction.left, "sim_b"⟩
      (by decide) (by decide) rfl (by decide) (by decide)⟩

/-! Helper lemmas for the round-trip property. -/

lemma parse_line_eval (line : String) (p0 p3 p4 : List Char) (c1 c2 : Char)
    (t1 t2 : List Char) (d : Direction)
    (hne : clean_line line ≠ [])
    (hsp : splitWs (clean_line line) = [p0, c1 :: t1, c2 :: t2, p3, p4])
    (hd : Direction.fromStr p3 = .ok d) :
    parse_line line =
      Except.ok { current_state := String.mk p0, current_symbol := c1, new_symbol := c2,
                  direction := d, new_state := String.mk p4 } := by
  unfold parse_line
  rw [if_neg hne, hsp]
  simp [hd]

lemma splitWs_five_tokens (v0 : List Char) (c1 : Char) (v2 : List Char) (c3 : Char)
    (v4 : List Char)
    (h0ne : v0 ≠ []) (h0 : ∀ c ∈ v0, c.isWhitespace = false)
    (h1 : c1.isWhitespace = false)
    (h2ne : v2 ≠ []) (h2 : ∀ c ∈ v2, c.isWhitespace = false)
    (h3 : c3.isWhitespace = false)
    (h4ne : v4 ≠ []) (h4 : ∀ c ∈ v4, c.isWhitespace = false) :
    splitWs (v0 ++ ' ' :: ([c1] ++ ' ' :: (v2 ++ ' ' :: ([c3] ++ ' ' :: v4)))) =
      [v0, [c1], v2, [c3], v4] := by
  rw [splitWs_token_cons v0 _ h0ne h0]
  rw [splitWs_token_cons [c1] _ (by simp) (by simpa using h1)]
  rw [splitWs_token_cons v2 _ h2ne h2]
  rw [splitWs_token_cons [c3] _ (by simp) (by simpa using h3)]
  rw [splitWs_last_token v4 h4ne h4]

/-- C6 counterexample: the record writing `*` over `b` renders to the same
text as the record leaving `b` unchanged, so re-parsing its rendering and
expanding the wildcard yields a different record than the original. -/
theorem c6_counterexample :
    (parse_line (Transition.render ⟨"a", 'b', '*', Direction.right, "c"⟩)).map
        spec_expand_wildcards =
      Except.ok ⟨"a", 'b', 'b', Direction.right, "c"⟩ ∧
    (⟨"a", 'b', 'b', Direction.right, "c"⟩ : Transition) ≠
      ⟨"a", 'b', '*', Direction.right, "c"⟩ :=
  ⟨rfl, by decide⟩

/-- C6 (amended): rendering a record and re-parsing the text, expanding any
wildcard as `unchanged`, reproduces the original record, provided the
labels are non-empty and free of whitespace and the comment delimiter, the
symbols are neither whitespace nor the comment delimiter, and the record
does not use the wildcard character literally in a position where rendering
would collapse to it ambiguously (a wildcard `new_symbol` only below a
wildcard `current_symbol`, a wildcard `new_state` only below a wildcard
`current_state`). -/
theorem c6_round_trip (t : Transition)
    (hcs0 : t.current_state.data ≠ [])
    (hcsA : ∀ c ∈ t.current_state.data, c.isWhitespace = false ∧ c ≠ ';')
    (hns0 : t.new_state.data ≠ [])
    (hnsA : ∀ c ∈ t.new_state.data, c.isWhitespace = false ∧ c ≠ ';')
    (hsym : t.current_symbol.isWhitespace = false ∧ t.current_symbol ≠ ';')
    (hnsym : t.new_symbol.isWhitespace = false ∧ t.new_symbol ≠ ';')
    (hwsym : t.new_symbol = ANY → t.current_symbol = ANY)
    (hwst : t.new_state = String.mk [ANY] → t.current_state = String.mk [ANY]) :
    (parse_line (Transition.render t)).map spec_expand_wildcards = Except.ok t := by
  have hv2ne : (if t.new_symbol = t.current_symbol then [ANY] else [t.new_symbol]) ≠
      ([] : List Char) := by
    split <;> simp
  have hv2w : ∀ c ∈ (if t.new_symbol = t.current_symbol then [ANY] else [t.new_symbol]),
      c.isWhitespace = false := by
    split <;> intro c hc <;> simp at hc <;> subst hc
    · decide
    · exact hnsym.1
  have hv2semi : ∀ c ∈ (if t.new_symbol = t.current_symbol then [ANY] else [t.new_symbol]),
      c ≠ ';' := by
    split <;> intro c hc <;> simp at hc <;> subst hc
    · decide
    · exact hnsym.2
  have hv4ne : (if t.new_state = t.current_state then [ANY] else t.new_state.data) ≠
      ([] : List Char) := by
    split
    · simp
    · exact hns0
  have hv4w : ∀ c ∈ (if t.new_state = t.current_state then [ANY] else t.new_state.data),
      c.isWhitespace = false := by
    split <;> intro c hc
    · simp at hc; subst hc; decide
    · exact (hnsA c hc).1
  have hv4semi : ∀ c ∈ (if t.new_state = t.current_state then [ANY] else t.new_state.data),
      c ≠ ';' := by
    split <;> intro c hc
    · simp at hc; subst hc; decide
    · exact (hnsA c hc).2
  have hc3w : (t.direction.render).isWhitespace = false := by
    cases t.direction <;> decide
  have hc3semi : (t.direction.render) ≠ ';' := by
    cases t.direction <;> decide
  have hsemi_all : ∀ c ∈ (Transition.render t).data, c ≠ ';' := by
    refine List.forall_mem_append.mpr ⟨fun c hc => (hcsA c hc).2, ?_⟩
    refine List.forall_mem_cons.mpr ⟨by decide, ?_⟩
    refine List.forall_mem_append.mpr
      ⟨fun c hc => by simp at hc; subst hc; exact hsym.2, ?_⟩
    refine List.forall_mem_cons.mpr ⟨by decide, ?_⟩
    refine List.forall_mem_append.mpr ⟨hv2semi, ?_⟩
    refine List.forall_mem_cons.mpr ⟨by decide, ?_⟩
    refine List.forall_mem_append.mpr
      ⟨fun c hc => by simp at hc; subst hc; exact hc3semi, ?_⟩
    exact List.forall_mem_cons.mpr ⟨by decide, hv4semi⟩
  obtain ⟨c0, r0, h0eq⟩ := List.exists_cons_of_ne_nil hcs0
  have hc0w : c0.isWhitespace = false :=
    (hcsA c0 (by rw [h0eq]; exact List.mem_cons_self c0 r0)).1
  obtain ⟨d4, u4, h4eq⟩ := List.exists_cons_of_ne_nil
    (show (if t.new_state = t.current_state then [ANY] else t.new_state.data).reverse ≠ []
      by simpa using hv4ne)
  have hd4w : d4.isWhitespace = false := by
    apply hv4w
    rw [← List.mem_reverse, h4eq]
    exact List.mem_cons_self d4 u4
  have hsplit4 : (Transition.render t).data =
      (t.current_state.data ++ ' ' :: ([t.current_symbol] ++ ' ' ::
        ((if t.new_symbol = t.current_symbol then [ANY] else [t.new_symbol]) ++ ' ' ::
          ([t.direction.render] ++ [' '])))) ++
        (if t.new_state = t.current_state then [ANY] else t.new_state.data) := by
    simp [Transition.render]
  have hclean : clean_line (Transition.render t) = (Transition.render t).data := by
    unfold clean_line
    rw [takeWhile_ne_semi_eq_self hsemi_all]
    apply trimChars_eq_self
    · refine ⟨c0, r0 ++ ' ' :: ([t.current_symbol] ++ ' ' ::
        ((if t.new_symbol = t.current_symbol then [ANY] else [t.new_symbol]) ++ ' ' ::
          ([t.direction.render] ++ ' ' ::
            (if t.new_state = t.current_state then [ANY] else t.new_state.data)))),
        ?_, hc0w⟩
      show (Transition.render t).data = _
      rw [show (Transition.render t).data = t.current_state.data ++ ' ' ::
        ([t.current_symbol] ++ ' ' ::
          ((if t.new_symbol = t.current_symbol then [ANY] else [t.new_symbol]) ++ ' ' ::
            ([t.direction.render] ++ ' ' ::
              (if t.new_state = t.current_state then [ANY] else t.new_state.data))))
        from rfl, h0eq]
      rfl
    · refine ⟨d4, u4 ++ (t.current_state.data ++ ' ' :: ([t.current_symbol] ++ ' ' ::
        ((if t.new_symbol = t.current_symbol then [ANY] else [t.new_symbol]) ++ ' ' ::
          ([t.direction.render] ++ [' '])))).reverse, ?_, hd4w⟩
      rw [hsplit4, List.reverse_append, h4eq]
      rfl
  have hsp : splitWs (clean_line (Transition.render t)) =
      [t.current_state.data, [t.current_symbol],
        (if t.new_symbol = t.current_symbol then [ANY] else [t.new_symbol]),
        [t.direction.render],
        (if t.new_state = t.current_state then [ANY] else t.new_state.data)] := by
    rw [hclean]
    exact splitWs_five_tokens t.current_state.data t.current_symbol
      (if t.new_symbol = t.current_symbol then [ANY] else [t.new_symbol])
      t.direction.render
      (if t.new_state = t.current_state then [ANY] else t.new_state.data)
      hcs0 (fun c hc => (hcsA c hc).1) hsym.1 hv2ne hv2w hc3w hv4ne hv4w
  have hne : clean_line (Transition.render t) ≠ [] := by
    rw [hclean]
    rw [show (Transition.render t).data = t.current_state.data ++ ' ' ::
      ([t.current_symbol] ++ ' ' ::
        ((if t.new_symbol = t.current_symbol then [ANY] else [t.new_symbol]) ++ ' ' ::
          ([t.direction.render] ++ ' ' ::
            (if t.new_state = t.current_state then [ANY] else t.new_state.data))))
      from rfl, h0eq]
    simp
  have hv2eq : (if t.new_symbol = t.current_symbol then [ANY] else [t.new_symbol]) =
      (if t.new_symbol = t.current_symbol then ANY else t.new_symbol) :: [] := by
    split <;> rfl
  rw [hv2eq] at hsp
  have hparse := parse_line_eval (Transition.render t) t.current_state.data
    [t.direction.render]
    (if t.new_state = t.current_state then [ANY] else t.new_state.data)
    t.current_symbol (if t.new_symbol = t.current_symbol then ANY else t.new_symbol)
    [] [] t.direction hne hsp (fromStr_render t.direction)
  rw [hparse]
  have hfield2 :
      (if (if t.new_symbol = t.current_symbol then ANY else t.new_symbol) = ANY
        then t.current_symbol
        else (if t.new_symbol = t.current_symbol then ANY else t.new_symbol)) =
        t.new_symbol := by
    by_cases h1 : t.new_symbol = t.current_symbol
    · rw [if_pos h1, if_pos rfl]
      exact h1.symm
    · rw [if_neg h1]
      by_cases hA : t.new_symbol = ANY
      · rw [if_pos hA, hwsym hA, hA]
      · rw [if_neg hA]
  have hfield4 :
      (if String.mk (if t.new_state = t.current_state then [ANY] else t.new_state.data) =
          String.mk [ANY]
        then t.current_state
        else String.mk
          (if t.new_state = t.current_state then [ANY] else t.new_state.data)) =
        t.new_state := by
    by_cases h2 : t.new_state = t.current_state
    · rw [if_pos h2, if_pos rfl]
      exact h2.symm
    · rw [if_neg h2]
      rw [show String.mk t.new_state.data = t.new_state from rfl]
      by_cases hB : t.new_state = String.mk [ANY]
      · rw [if_pos hB, hwst hB, hB]
      · rw [if_neg hB]
  show Except.ok (spec_expand_wildcards
    { current_state := String.mk t.current_state.data, current_symbol := t.current_symbol,
      new_symbol := (if t.new_symbol = t.current_symbol then ANY else t.new_symbol),
      direction := t.direction,
      new_state := String.mk
        (if t.new_state = t.current_state then [ANY] else t.new_state.data) }) =
    Except.ok t
  congr 1
  unfold spec_expand_wildcards
  dsimp only []
  rw [hfield2, hfield4]

/-- C6 witness: the round trip at a concrete record with clean labels and
no ambiguous wildcard use. -/
theorem c6_witness :
    (("foo" : String).data ≠ [] ∧
      ∀ c ∈ ("foo" : String).data, c.isWhitespace = false ∧ c ≠ ';') ∧
    (("halt" : String).data ≠ [] ∧
      ∀ c ∈ ("halt" : String).data, c.isWhitespace = false ∧ c ≠ ';') ∧
    (('0' : Char).isWhitespace = false ∧ ('0' : Char) ≠ ';') ∧
    (('1' : Char).isWhitespace = false ∧ ('1' : Char) ≠ ';') ∧
    (('1' : Char) = ANY → ('0' : Char) = ANY) ∧
    (("halt" : String) = String.mk [ANY] → ("foo" : String) = String.mk [ANY]) ∧
    ((parse_line (Transition.render ⟨"foo", '0', '1', Direction.left, "halt"⟩)).map
        spec_expand_wildcards =
      Except.ok ⟨"foo", '0', '1', Direction.left, "halt"⟩) :=
  ⟨by decide, by decide, by decide, by decide, by decide, by decide,
    c6_round_trip ⟨"foo", '0', '1', Direction.left, "halt"⟩ (by decide) (by decide)
      (by decide) (by decide) (by decide) (by decide) (by decide) (by decide)⟩

end TuringSim
